import Mathlib

/-!
Verification of the `QueryAutoRefresh` polling component
(src/superset/assets/src/SqlLab/components/QueryAutoRefresh.jsx).

The component is embedded shallowly:
* the pure query predicates (`isQueryRunning`, `shouldCheckForQueries`)
  are translated directly as Lean functions;
* the stateful scheduling behaviour (timer handle, in-flight HTTP request,
  retry counter, mount/unmount lifecycle) is modelled as an explicit state
  machine `PollerState` with a step relation over observable events;
* the offline-flag propagation of `componentDidUpdate` is modelled as a
  separate small synchronisation machine `OfflineSync`.
-/

namespace QueryAutoRefresh

/-! ### Constants (lines 27-31 of the source) -/

def QUERY_UPDATE_FREQ : Nat := 500
def QUERY_UPDATE_FREQ_MAX : Nat := 5000
def QUERY_UPDATE_BUFFER_MS : Nat := 5000
def MAX_QUERY_AGE_TO_POLL : Int := 21600000
def QUERY_TIMEOUT_LIMIT : Nat := 10000

/-! ### Query records and the active-query predicate (lines 54-72) -/

/-- A query record as read by the poller.  `sqlEditorId` may be `undefined`
in JS, hence `Option String`; `startDttm` is milliseconds since epoch. -/
structure Query where
  queryState : String
  startDttm : Int
  sqlEditorId : Option String
  deriving Repr, DecidableEq

/-- JS `Array.prototype.indexOf` on a list of strings: index of the first
occurrence, `-1` when absent. -/
def jsIndexOf : List String → String → Int
  | [], _ => -1
  | x :: xs, s =>
      if x = s then 0
      else
        let r := jsIndexOf xs s
        if r = -1 then -1 else r + 1

/-- Line 58-60: `q => ['running','started','pending','fetching'].indexOf(q.state) >= 0`. -/
def isQueryRunning (q : Query) : Bool :=
  jsIndexOf ["running", "started", "pending", "fetching"] q.queryState ≥ 0

/-- The per-query active predicate inlined at lines 68-69:
`isQueryRunning(q) && now - q.startDttm < MAX_QUERY_AGE_TO_POLL`. -/
def isQueryActive (q : Query) (now : Int) : Bool :=
  isQueryRunning q && decide (now - q.startDttm < MAX_QUERY_AGE_TO_POLL)

/-- Lines 54-72, `shouldCheckForQueries`: filter the query collection to the
current editor session, then test whether some query is running and young
enough.  `queries` stands for `Object.values(this.props.queries)`. -/
def shouldCheckForQueries (queries : List Query) (queryEditorId : Option String)
    (now : Int) : Bool :=
  let editorQueries := queries.filter (fun q => decide (q.sqlEditorId = queryEditorId))
  editorQueries.any (fun q => isQueryActive q now)

/-! ### Basic facts about `jsIndexOf` -/

theorem jsIndexOf_neg_one_or_nonneg (xs : List String) (s : String) :
    jsIndexOf xs s = -1 ∨ 0 ≤ jsIndexOf xs s := by
  induction xs with
  | nil => left; rfl
  | cons x xs ih =>
      by_cases hx : x = s
      · right; simp [jsIndexOf, hx]
      · rcases ih with h | h
        · left; simp [jsIndexOf, hx, h]
        · right
          have hne : ¬ jsIndexOf xs s = -1 := by omega
          simp [jsIndexOf, hx, hne]
          omega

theorem jsIndexOf_nonneg_iff_mem (xs : List String) (s : String) :
    0 ≤ jsIndexOf xs s ↔ s ∈ xs := by
  induction xs with
  | nil => simp [jsIndexOf]
  | cons x xs ih =>
      by_cases hx : x = s
      · simp [jsIndexOf, hx]
      · rcases jsIndexOf_neg_one_or_nonneg xs s with h | h
        · constructor
          · intro hc
            exfalso
            simp [jsIndexOf, hx, h] at hc
          · intro hc
            exfalso
            rcases List.mem_cons.mp hc with rfl | hc2
            · exact hx rfl
            · have := ih.mpr hc2
              omega
        · have hmem : s ∈ xs := ih.mp h
          have hne : ¬ jsIndexOf xs s = -1 := by omega
          simp [jsIndexOf, hx, hne, hmem]
          omega

/-- C5: a query record q is active at time now iff its state is one of
running/started/pending/fetching and now - startDttm is below the 6-hour
ceiling MAX_QUERY_AGE_TO_POLL = 21600000 ms; in particular a running record
whose start time is 6 hours or more in the past is not active. -/
theorem C5_active_query_predicate (q : Query) (now : Int) :
    isQueryActive q now = true ↔
      ((q.queryState = "running" ∨ q.queryState = "started" ∨
        q.queryState = "pending" ∨ q.queryState = "fetching") ∧
       now - q.startDttm < 21600000) := by
  have hmem := jsIndexOf_nonneg_iff_mem
    ["running", "started", "pending", "fetching"] q.queryState
  simp only [isQueryActive, isQueryRunning, Bool.and_eq_true, decide_eq_true_eq,
    ge_iff_le, MAX_QUERY_AGE_TO_POLL] at *
  rw [hmem]
  simp [List.mem_cons]

theorem C5_witness :
    isQueryActive ⟨"running", 0, none⟩ 21600000 = true ↔
      (("running" = "running" ∨ "running" = "started" ∨
        "running" = "pending" ∨ "running" = "fetching") ∧
       (21600000 : Int) - 0 < 21600000) :=
  C5_active_query_predicate ⟨"running", 0, none⟩ 21600000

/-- C6: a query whose sqlEditorId differs from the poller's queryEditorId is
filtered out before the active-query test, so inserting such a record
anywhere in the collection never changes the polling decision. -/
theorem C6_session_scoped (q : Query) (qs1 qs2 : List Query)
    (queryEditorId : Option String) (now : Int)
    (h : ¬ q.sqlEditorId = queryEditorId) :
    shouldCheckForQueries (qs1 ++ q :: qs2) queryEditorId now =
      shouldCheckForQueries (qs1 ++ qs2) queryEditorId now := by
  simp [shouldCheckForQueries, List.filter_append, List.filter_cons, h]

theorem C6_witness :
    ¬ (some "a" : Option String) = some "b" ∧
    shouldCheckForQueries ([] ++ ⟨"running", 0, some "a"⟩ :: []) (some "b") 0 =
      shouldCheckForQueries ([] ++ []) (some "b") 0 :=
  ⟨by decide, C6_session_scoped ⟨"running", 0, some "a"⟩ [] [] (some "b") 0 (by decide)⟩

/-! ### The poller state machine (lifecycle hooks, startTimer/stopTimer/stopwatch)

The component instance is modelled by an explicit state.  `timer` is the
value of `this.timer` (a JS timeout handle or null).  `pendingTimeouts`
lists the scheduled callbacks that have neither fired nor been cancelled,
as (handle, bound retry_count) pairs — a list so that the single-timer
claim is a theorem, not a typing artefact.  `inflight` lists the retry
counts bound into outstanding HTTP requests.  The remaining numeric and
boolean fields are observer (ghost) fields recording what happened. -/

structure PollerState where
  timer : Option Nat
  pendingTimeouts : List (Nat × Nat)
  inflight : List Nat
  nextHandle : Nat
  mounted : Bool
  stateOffline : Bool
  httpCalls : Nat
  timersCreated : Nat
  delays : List Nat
  computedDelays : List Nat
  refreshCalls : Nat
  refreshAfterUnmount : Bool
  inflightAtUnmount : Bool
  deriving Repr, DecidableEq

/-- Line 83: the delay the code computes (and logs) —
`Math.min(QUERY_UPDATE_FREQ + retry_count*50, QUERY_UPDATE_FREQ_MAX)`. -/
def computedDelay (retry_count : Nat) : Nat :=
  min (QUERY_UPDATE_FREQ + retry_count * 50) QUERY_UPDATE_FREQ_MAX

/-- Lines 73-87, `startTimer(retry_count)`: guarded on `this.timer` being
null; computes `delay` (line 83) but passes `QUERY_UPDATE_FREQ` as the
actual setTimeout delay (line 85), binding `retry_count` into the callback. -/
def startTimer (s : PollerState) (retry_count : Nat) : PollerState :=
  if s.timer = none then
    { s with
      timer := some s.nextHandle,
      pendingTimeouts := s.pendingTimeouts ++ [(s.nextHandle, retry_count)],
      nextHandle := s.nextHandle + 1,
      timersCreated := s.timersCreated + 1,
      computedDelays := s.computedDelays ++ [computedDelay retry_count],
      delays := s.delays ++ [QUERY_UPDATE_FREQ] }
  else s

/-- Lines 88-92, `stopTimer()`: clearTimeout on the stored handle (which
cancels its callback if still pending), then null the handle. -/
def stopTimer (s : PollerState) : PollerState :=
  match s.timer with
  | some h =>
      { s with timer := none,
               pendingTimeouts := s.pendingTimeouts.filter (fun p => !(p.1 == h)) }
  | none => s

/-- Lines 93-117, the body of `stopwatch(retry_count)` once its timeout has
fired.  `sc` is the value of `shouldCheckForQueries()` at that moment.
If true, one HTTP GET is issued (lines 98-100); if false, the timer is
cleared and the local offline state is set to false (lines 113-116). -/
def stopwatchFire (s : PollerState) (rc : Nat) (sc : Bool) : PollerState :=
  if sc then
    { s with inflight := s.inflight ++ [rc], httpCalls := s.httpCalls + 1 }
  else
    { stopTimer s with stateOffline := false }

/-- Lines 101-112: settlement of the outstanding request bound to rc.
`ok` is whether the promise resolved; `nonEmpty` whether the JSON body had
keys.  then-branch: maybe dispatch refreshQueries, offline := false;
catch-branch: offline := true; finally: stopTimer then
startTimer(++retry_count) — unconditionally, with the incremented counter. -/
def settleRequest (s : PollerState) (rc : Nat) (ok nonEmpty : Bool) : PollerState :=
  let s1 :=
    if ok then
      let s0 :=
        if nonEmpty then
          { s with refreshCalls := s.refreshCalls + 1,
                   refreshAfterUnmount := s.refreshAfterUnmount || !s.mounted }
        else s
      { s0 with stateOffline := false }
    else
      { s with stateOffline := true }
  startTimer (stopTimer s1) (rc + 1)

/-- Observable events of one poller instance.  `sc` parameters carry the
value `shouldCheckForQueries()` would return at that instant (an input from
the environment: the query collection and the clock).  The settle event
carries an `sc` too, so that claims about the predicate at settlement time
are statable — the code itself never consults it there. -/
inductive Ev where
  | trigger (sc : Bool)
  | fire (h : Nat) (sc : Bool)
  | settle (ok nonEmpty sc : Bool)
  | unmount
  deriving Repr, DecidableEq

/-- The freshly constructed, mounted component (lines 34-39): null timer,
nothing scheduled, nothing in flight. -/
def initPoller (offline0 : Bool) : PollerState :=
  { timer := none, pendingTimeouts := [], inflight := [], nextHandle := 0,
    mounted := true, stateOffline := offline0, httpCalls := 0,
    timersCreated := 0, delays := [], computedDelays := [], refreshCalls := 0,
    refreshAfterUnmount := false, inflightAtUnmount := false }

/-- One event step.  `none` means the event is not enabled in this state
(no such pending timeout, no outstanding request, or a lifecycle hook on an
unmounted instance — React never delivers those). -/
def step (s : PollerState) : Ev → Option PollerState
  | .trigger sc =>
      if s.mounted then
        some (if sc then startTimer s 0 else s)
      else none
  | .fire h sc =>
      match s.pendingTimeouts.lookup h with
      | some rc =>
          some (stopwatchFire
            { s with pendingTimeouts := s.pendingTimeouts.filter (fun p => !(p.1 == h)) }
            rc sc)
      | none => none
  | .settle ok nonEmpty _sc =>
      match s.inflight with
      | rc :: rest => some (settleRequest { s with inflight := rest } rc ok nonEmpty)
      | [] => none
  | .unmount =>
      if s.mounted then
        some { stopTimer s with
               mounted := false,
               inflightAtUnmount := s.inflightAtUnmount || !s.inflight.isEmpty }
      else none

/-- Run a trace from a given state. -/
def reachFrom (s : PollerState) (tr : List Ev) : Option PollerState :=
  tr.foldl (fun os e => os.bind (fun s0 => step s0 e)) (some s)

/-- Run a trace from the initial (just mounted, online) state. -/
def reach (tr : List Ev) : Option PollerState :=
  reachFrom (initPoller false) tr

/-! ### Structural invariant of reachable states -/

/-- The single-flight invariant: at most one pending scheduled callback, at
most one outstanding HTTP request, every pending callback is owned by the
stored timer handle, and while a request is outstanding nothing is pending
(and, while mounted, the stale handle still occupies `this.timer`). -/
def InvC4 (s : PollerState) : Prop :=
  s.pendingTimeouts.length ≤ 1 ∧ s.inflight.length ≤ 1 ∧
  (∀ p ∈ s.pendingTimeouts, s.timer = some p.1) ∧
  (s.inflight ≠ [] → s.pendingTimeouts = [] ∧ (s.mounted = true → s.timer ≠ none))

theorem length_le_one_cases {α : Type} (l : List α) (h : l.length ≤ 1) :
    l = [] ∨ ∃ a, l = [a] := by
  match l with
  | [] => exact Or.inl rfl
  | [a] => exact Or.inr ⟨a, rfl⟩
  | a :: b :: t => simp at h

theorem pending_nil_of_timer_none (s : PollerState)
    (hcoh : ∀ p ∈ s.pendingTimeouts, s.timer = some p.1) (h : s.timer = none) :
    s.pendingTimeouts = [] := by
  cases hl : s.pendingTimeouts with
  | nil => rfl
  | cons p tl =>
      have h1 := hcoh p (by rw [hl]; exact List.mem_cons_self _ _)
      rw [h] at h1
      exact Option.noConfusion h1

theorem stopTimer_timer (s : PollerState) : (stopTimer s).timer = none := by
  unfold stopTimer
  cases h : s.timer <;> simp [h]

theorem stopTimer_ghost (s : PollerState) :
    (stopTimer s).inflight = s.inflight ∧ (stopTimer s).nextHandle = s.nextHandle ∧
    (stopTimer s).mounted = s.mounted ∧ (stopTimer s).stateOffline = s.stateOffline ∧
    (stopTimer s).httpCalls = s.httpCalls ∧
    (stopTimer s).timersCreated = s.timersCreated ∧
    (stopTimer s).delays = s.delays ∧
    (stopTimer s).computedDelays = s.computedDelays ∧
    (stopTimer s).refreshCalls = s.refreshCalls ∧
    (stopTimer s).refreshAfterUnmount = s.refreshAfterUnmount ∧
    (stopTimer s).inflightAtUnmount = s.inflightAtUnmount := by
  unfold stopTimer
  cases s.timer <;> simp

theorem stopTimer_pending_of_coh (s : PollerState)
    (hcoh : ∀ p ∈ s.pendingTimeouts, s.timer = some p.1) :
    (stopTimer s).pendingTimeouts = [] := by
  unfold stopTimer
  cases h : s.timer with
  | none => exact pending_nil_of_timer_none s hcoh h
  | some h0 =>
      simp only [List.filter_eq_nil_iff]
      intro p hp
      have h1 := hcoh p hp
      rw [h] at h1
      have h2 : p.1 = h0 := by injection h1 with h1; omega
      simp [h2]

theorem trigger_preserves (s s' : PollerState) (sc : Bool)
    (hinv : InvC4 s) (hstep : step s (Ev.trigger sc) = some s') : InvC4 s' := by
  obtain ⟨hlen, hinf, hcoh, hexc⟩ := hinv
  simp only [step] at hstep
  split at hstep
  · rename_i hm
    rw [Option.some.injEq] at hstep
    subst hstep
    cases sc with
    | false => exact ⟨hlen, hinf, hcoh, hexc⟩
    | true =>
        simp only [if_true]
        cases ht : s.timer with
        | some h0 => simpa [startTimer, ht] using ⟨hlen, hinf, hcoh, hexc⟩
        | none =>
            have hpt : s.pendingTimeouts = [] := pending_nil_of_timer_none s hcoh ht
            have hinfl : s.inflight = [] := by
              by_contra hne
              exact (hexc hne).2 hm ht
            simp [startTimer, ht, InvC4, hpt, hinfl]
  · exact Option.noConfusion hstep

theorem fire_preserves (s s' : PollerState) (h : Nat) (sc : Bool)
    (hinv : InvC4 s) (hstep : step s (Ev.fire h sc) = some s') : InvC4 s' := by
  obtain ⟨hlen, hinf, hcoh, hexc⟩ := hinv
  simp only [step] at hstep
  split at hstep
  · rename_i rc hlk
    rw [Option.some.injEq] at hstep
    subst hstep
    rcases length_le_one_cases _ hlen with hpt | ⟨⟨h0, rc0⟩, hpt⟩
    · rw [hpt] at hlk
      exact Option.noConfusion hlk
    · have htimer : s.timer = some h0 :=
        hcoh (h0, rc0) (by rw [hpt]; exact List.mem_cons_self _ _)
      have hh : h0 = h ∧ rc = rc0 := by
        rw [hpt] at hlk
        unfold List.lookup at hlk
        cases hbe : h == h0 with
        | true =>
            rw [hbe] at hlk
            simp at hlk
            exact ⟨(eq_of_beq hbe).symm, hlk.symm⟩
        | false =>
            rw [hbe] at hlk
            simp [List.lookup] at hlk
      have hinfl : s.inflight = [] := by
        by_contra hne
        have h2 := (hexc hne).1
        rw [hpt] at h2
        exact List.noConfusion h2
      have hfil :
          s.pendingTimeouts.filter (fun p => !(p.1 == h)) = [] := by
        rw [hpt, hh.1]
        simp
      cases sc with
      | true => simp [stopwatchFire, InvC4, hfil, hinfl, htimer]
      | false => simp [stopwatchFire, stopTimer, InvC4, hfil, hinfl, htimer]
  · exact Option.noConfusion hstep

theorem settle_preserves (s s' : PollerState) (ok nonEmpty sc : Bool)
    (hinv : InvC4 s) (hstep : step s (Ev.settle ok nonEmpty sc) = some s') :
    InvC4 s' := by
  obtain ⟨hlen, hinf, hcoh, hexc⟩ := hinv
  simp only [step] at hstep
  split at hstep
  · rename_i rc rest hin
    rw [Option.some.injEq] at hstep
    subst hstep
    have hne : s.inflight ≠ [] := by rw [hin]; simp
    obtain ⟨hpt, _⟩ := hexc hne
    have hrest : rest = [] := by
      rw [hin] at hinf
      cases rest with
      | nil => rfl
      | cons a t =>
          exfalso
          simp only [List.length_cons] at hinf
          omega
    subst hrest
    cases ok <;> cases nonEmpty <;> cases ht : s.timer <;>
      simp [settleRequest, stopTimer, startTimer, InvC4, hpt, ht]
  · exact Option.noConfusion hstep

theorem unmount_preserves (s s' : PollerState)
    (hinv : InvC4 s) (hstep : step s Ev.unmount = some s') : InvC4 s' := by
  obtain ⟨hlen, hinf, hcoh, hexc⟩ := hinv
  simp only [step] at hstep
  split at hstep
  · rw [Option.some.injEq] at hstep
    subst hstep
    have hpt := stopTimer_pending_of_coh s hcoh
    obtain ⟨hi, _⟩ := stopTimer_ghost s
    refine ⟨?_, ?_, ?_, ?_⟩
    · simp [hpt]
    · simpa [hi] using hinf
    · intro p hp
      rw [hpt] at hp
      exact absurd hp (List.not_mem_nil p)
    · intro _
      exact ⟨by simp [hpt], by intro hm; exact absurd hm (by simp)⟩
  · exact Option.noConfusion hstep

theorem step_preserves_InvC4 (s s' : PollerState) (e : Ev)
    (hinv : InvC4 s) (hstep : step s e = some s') : InvC4 s' := by
  cases e with
  | trigger sc => exact trigger_preserves s s' sc hinv hstep
  | fire h sc => exact fire_preserves s s' h sc hinv hstep
  | settle ok nonEmpty sc => exact settle_preserves s s' ok nonEmpty sc hinv hstep
  | unmount => exact unmount_preserves s s' hinv hstep

theorem foldl_none (tr : List Ev) :
    tr.foldl (fun os e => os.bind (fun s0 => step s0 e)) none = none := by
  induction tr with
  | nil => rfl
  | cons e tr ih => simpa using ih

theorem reachFrom_preserves_InvC4 (tr : List Ev) (s0 s : PollerState)
    (hinv : InvC4 s0) (h : reachFrom s0 tr = some s) : InvC4 s := by
  induction tr generalizing s0 with
  | nil =>
      simp [reachFrom] at h
      subst h
      exact hinv
  | cons e tr ih =>
      simp only [reachFrom, List.foldl_cons, Option.some_bind] at h
      cases hstep : step s0 e with
      | none =>
          rw [hstep] at h
          rw [foldl_none] at h
          exact Option.noConfusion h
      | some s1 =>
          rw [hstep] at h
          exact ih s1 (step_preserves_InvC4 s0 s1 e hinv hstep) h

theorem InvC4_init (b : Bool) : InvC4 (initPoller b) := by
  refine ⟨by simp [initPoller], by simp [initPoller], ?_, ?_⟩
  · intro p hp
    simp [initPoller] at hp
  · intro hne
    simp [initPoller] at hne

/-! ### Concrete reachable states used as witnesses -/

/-- State after mounting with one active query: reach [trigger true]. -/
def exampleAfterTrigger : PollerState :=
  { timer := some 0, pendingTimeouts := [(0, 0)], inflight := [], nextHandle := 1,
    mounted := true, stateOffline := false, httpCalls := 0, timersCreated := 1,
    delays := [500], computedDelays := [500], refreshCalls := 0,
    refreshAfterUnmount := false, inflightAtUnmount := false }

/-- State with one HTTP request outstanding: reach [trigger true, fire 0 true]. -/
def exampleInFlight : PollerState :=
  { timer := some 0, pendingTimeouts := [], inflight := [0], nextHandle := 1,
    mounted := true, stateOffline := false, httpCalls := 1, timersCreated := 1,
    delays := [500], computedDelays := [500], refreshCalls := 0,
    refreshAfterUnmount := false, inflightAtUnmount := false }

/-- State right after a successful empty-body settlement of the request in
`exampleInFlight`. -/
def exampleAfterSuccess : PollerState :=
  { timer := some 1, pendingTimeouts := [(1, 1)], inflight := [], nextHandle := 2,
    mounted := true, stateOffline := false, httpCalls := 1, timersCreated := 2,
    delays := [500, 500], computedDelays := [500, 550], refreshCalls := 0,
    refreshAfterUnmount := false, inflightAtUnmount := false }

/-- State right after a successful non-empty settlement of the request in
`exampleInFlight` (one refreshQueries dispatch). -/
def exampleAfterRefresh : PollerState :=
  { timer := some 1, pendingTimeouts := [(1, 1)], inflight := [], nextHandle := 2,
    mounted := true, stateOffline := false, httpCalls := 1, timersCreated := 2,
    delays := [500, 500], computedDelays := [500, 550], refreshCalls := 1,
    refreshAfterUnmount := false, inflightAtUnmount := false }

/-- State after the scheduled callback fires with no active query:
reach [trigger true, fire 0 false]. -/
def exampleIdleFire : PollerState :=
  { timer := none, pendingTimeouts := [], inflight := [], nextHandle := 1,
    mounted := true, stateOffline := false, httpCalls := 0, timersCreated := 1,
    delays := [500], computedDelays := [500], refreshCalls := 0,
    refreshAfterUnmount := false, inflightAtUnmount := false }

/-- State after a clean unmount with nothing in flight:
reach [trigger true, unmount]. -/
def exampleCleanUnmount : PollerState :=
  { timer := none, pendingTimeouts := [], inflight := [], nextHandle := 1,
    mounted := false, stateOffline := false, httpCalls := 0, timersCreated := 1,
    delays := [500], computedDelays := [500], refreshCalls := 0,
    refreshAfterUnmount := false, inflightAtUnmount := false }

/-- State after a run in which the predicate never held:
reach [trigger false, unmount]. -/
def exampleIdleRun : PollerState :=
  { timer := none, pendingTimeouts := [], inflight := [], nextHandle := 0,
    mounted := false, stateOffline := false, httpCalls := 0, timersCreated := 0,
    delays := [], computedDelays := [], refreshCalls := 0,
    refreshAfterUnmount := false, inflightAtUnmount := false }

/-- C4: at every reachable state of a poller instance there is at most one
pending scheduled callback and at most one outstanding HTTP request. -/
theorem C4_single_flight (tr : List Ev) (s : PollerState) (h : reach tr = some s) :
    s.pendingTimeouts.length ≤ 1 ∧ s.inflight.length ≤ 1 := by
  have hinv := reachFrom_preserves_InvC4 tr (initPoller false) s (InvC4_init false) h
  exact ⟨hinv.1, hinv.2.1⟩

theorem C4_witness :
    exampleAfterTrigger.pendingTimeouts.length ≤ 1 ∧
    exampleAfterTrigger.inflight.length ≤ 1 :=
  C4_single_flight [Ev.trigger true] exampleAfterTrigger (by decide)

/-! ### Idle runs: the predicate never holds -/

/-- The value of shouldCheckForQueries observed by an event, when it
observes one. -/
def scOf : Ev → Option Bool
  | .trigger sc => some sc
  | .fire _ sc => some sc
  | .settle _ _ sc => some sc
  | .unmount => none

/-- Invariant of runs in which the active-query predicate never held: no
request was issued, no timer was created, nothing is scheduled or pending. -/
def IdleInv (s : PollerState) : Prop :=
  s.httpCalls = 0 ∧ s.timersCreated = 0 ∧ s.pendingTimeouts = [] ∧
  s.inflight = [] ∧ s.timer = none

theorem step_preserves_IdleInv (s s' : PollerState) (e : Ev)
    (hsc : scOf e ≠ some true)
    (hinv : IdleInv s) (hstep : step s e = some s') : IdleInv s' := by
  obtain ⟨h1, h2, h3, h4, h5⟩ := hinv
  cases e with
  | trigger sc =>
      cases sc with
      | true => exact absurd rfl hsc
      | false =>
          simp only [step] at hstep
          split at hstep
          · rw [Option.some.injEq] at hstep
            subst hstep
            simpa using ⟨h1, h2, h3, h4, h5⟩
          · exact Option.noConfusion hstep
  | fire h sc =>
      simp only [step] at hstep
      split at hstep
      · rename_i rc hlk
        rw [h3] at hlk
        simp [List.lookup] at hlk
      · exact Option.noConfusion hstep
  | settle ok nonEmpty sc =>
      simp only [step] at hstep
      split at hstep
      · rename_i rc rest hin
        rw [h4] at hin
        exact List.noConfusion hin
      · exact Option.noConfusion hstep
  | unmount =>
      simp only [step] at hstep
      split at hstep
      · rw [Option.some.injEq] at hstep
        subst hstep
        refine ⟨?_, ?_, ?_, ?_, ?_⟩ <;> simp [stopTimer, h5, h1, h2, h3, h4]
      · exact Option.noConfusion hstep

theorem reachFrom_preserves_IdleInv (tr : List Ev) (s0 s : PollerState)
    (hsc : ∀ e ∈ tr, scOf e ≠ some true)
    (hinv : IdleInv s0) (h : reachFrom s0 tr = some s) : IdleInv s := by
  induction tr generalizing s0 with
  | nil =>
      simp [reachFrom] at h
      subst h
      exact hinv
  | cons e tr ih =>
      simp only [reachFrom, List.foldl_cons, Option.some_bind] at h
      cases hstep : step s0 e with
      | none =>
          rw [hstep] at h
          rw [foldl_none] at h
          exact Option.noConfusion h
      | some s1 =>
          rw [hstep] at h
          exact ih s1 (fun e2 he2 => hsc e2 (List.mem_cons_of_mem _ he2))
            (step_preserves_IdleInv s0 s1 e (hsc e (List.mem_cons_self _ _)) hinv hstep) h

/-- C8: in every run of the poller in which no observation of the
active-query predicate is ever true, no HTTP call is issued and no timer is
created. -/
theorem C8_never_active_never_polls (tr : List Ev) (s : PollerState)
    (hsc : ∀ e ∈ tr, scOf e ≠ some true) (h : reach tr = some s) :
    s.httpCalls = 0 ∧ s.timersCreated = 0 := by
  have hinv := reachFrom_preserves_IdleInv tr (initPoller false) s hsc
    ⟨rfl, rfl, rfl, rfl, rfl⟩ h
  exact ⟨hinv.1, hinv.2.1⟩

theorem C8_witness :
    exampleIdleRun.httpCalls = 0 ∧ exampleIdleRun.timersCreated = 0 :=
  C8_never_active_never_polls [Ev.trigger false, Ev.unmount] exampleIdleRun
    (by decide) (by decide)

/-! ### Teardown: what can still happen after unmount -/

/-- Invariant relating the unmount ghost flags: while mounted neither flag
is set; once unmounted with no request caught in flight, nothing is pending
or outstanding and no refresh has happened nor ever will. -/
def TeardownInv (s : PollerState) : Prop :=
  (s.mounted = true → s.refreshAfterUnmount = false ∧ s.inflightAtUnmount = false) ∧
  (s.mounted = false → s.inflightAtUnmount = false →
     s.inflight = [] ∧ s.pendingTimeouts = [] ∧ s.refreshAfterUnmount = false)

theorem step_preserves_TeardownInv (s s' : PollerState) (e : Ev)
    (hc4 : InvC4 s) (hinv : TeardownInv s) (hstep : step s e = some s') :
    TeardownInv s' := by
  obtain ⟨hm, hu⟩ := hinv
  cases e with
  | trigger sc =>
      simp only [step] at hstep
      split at hstep
      · rename_i hmt
        rw [Option.some.injEq] at hstep
        subst hstep
        cases sc with
        | false => exact ⟨hm, hu⟩
        | true =>
            obtain ⟨hr0, hi0⟩ := hm hmt
            cases ht : s.timer <;>
              simp [TeardownInv, startTimer, ht, hmt, hr0, hi0]
      · exact Option.noConfusion hstep
  | fire h sc =>
      simp only [step] at hstep
      split at hstep
      · rename_i rc hlk
        rw [Option.some.injEq] at hstep
        subst hstep
        cases hmt : s.mounted with
        | true =>
            obtain ⟨hr0, hi0⟩ := hm hmt
            cases sc <;> cases ht : s.timer <;>
              simp [TeardownInv, stopwatchFire, stopTimer, ht, hmt, hr0, hi0]
        | false =>
            cases hia : s.inflightAtUnmount with
            | false =>
                obtain ⟨_, hpt, _⟩ := hu hmt hia
                rw [hpt] at hlk
                simp [List.lookup] at hlk
            | true =>
                cases sc <;> cases ht : s.timer <;>
                  simp [TeardownInv, stopwatchFire, stopTimer, ht, hmt, hia]
      · exact Option.noConfusion hstep
  | settle ok nonEmpty sc =>
      simp only [step] at hstep
      split at hstep
      · rename_i rc rest hin
        rw [Option.some.injEq] at hstep
        subst hstep
        cases hmt : s.mounted with
        | true =>
            obtain ⟨hr0, hi0⟩ := hm hmt
            cases ok <;> cases nonEmpty <;> cases ht : s.timer <;>
              simp [TeardownInv, settleRequest, stopTimer, startTimer, ht, hmt,
                hr0, hi0]
        | false =>
            cases hia : s.inflightAtUnmount with
            | false =>
                obtain ⟨hifl, _, _⟩ := hu hmt hia
                rw [hifl] at hin
                exact List.noConfusion hin
            | true =>
                cases ok <;> cases nonEmpty <;> cases ht : s.timer <;>
                  simp [TeardownInv, settleRequest, stopTimer, startTimer, ht,
                    hmt, hia]
      · exact Option.noConfusion hstep
  | unmount =>
      simp only [step] at hstep
      split at hstep
      · rename_i hmt
        rw [Option.some.injEq] at hstep
        subst hstep
        obtain ⟨hr0, hi0⟩ := hm hmt
        constructor
        · intro hmt2
          simp at hmt2
        · intro _ hia2
          simp only [hi0, Bool.false_or] at hia2
          have hifl : s.inflight = [] := by
            cases hl : s.inflight with
            | nil => rfl
            | cons a t =>
                rw [hl] at hia2
                simp at hia2
          have hpt := stopTimer_pending_of_coh s hc4.2.2.1
          cases ht : s.timer with
          | none =>
              have hpt2 : s.pendingTimeouts = [] :=
                pending_nil_of_timer_none s hc4.2.2.1 ht
              simp [stopTimer, ht, hifl, hr0, hpt2]
          | some h0 =>
              simp only [stopTimer, ht] at hpt
              simp [stopTimer, ht, hifl, hr0, hpt]
      · exact Option.noConfusion hstep

theorem reachFrom_preserves_TeardownInv (tr : List Ev) (s0 s : PollerState)
    (hinv : InvC4 s0 ∧ TeardownInv s0) (h : reachFrom s0 tr = some s) :
    InvC4 s ∧ TeardownInv s := by
  induction tr generalizing s0 with
  | nil =>
      simp [reachFrom] at h
      subst h
      exact hinv
  | cons e tr ih =>
      simp only [reachFrom, List.foldl_cons, Option.some_bind] at h
      cases hstep : step s0 e with
      | none =>
          rw [hstep] at h
          rw [foldl_none] at h
          exact Option.noConfusion h
      | some s1 =>
          rw [hstep] at h
          exact ih s1
            ⟨step_preserves_InvC4 s0 s1 e hinv.1 hstep,
             step_preserves_TeardownInv s0 s1 e hinv.1 hinv.2 hstep⟩ h

theorem TeardownInv_init (b : Bool) : TeardownInv (initPoller b) := by
  constructor
  · intro _
    exact ⟨rfl, rfl⟩
  · intro hmf
    exact absurd hmf (by simp [initPoller])

/-- C3 as stated is refuted: after unmounting while a request is in flight,
the settlement of that request still dispatches refreshQueries. -/
theorem C3_counterexample :
    (reach [Ev.trigger true, Ev.fire 0 true, Ev.unmount,
            Ev.settle true true false]).map PollerState.refreshAfterUnmount =
      some true := by decide

/-- C3 amended: after unmount no further refreshQueries dispatch occurs
provided no HTTP request was in flight at the moment of unmount; an
in-flight request, however, may still dispatch on settlement. -/
theorem C3_no_refresh_after_clean_unmount (tr : List Ev) (s : PollerState)
    (h : reach tr = some s) (hclean : s.inflightAtUnmount = false) :
    s.refreshAfterUnmount = false := by
  obtain ⟨_, hm, hu⟩ := reachFrom_preserves_TeardownInv tr (initPoller false) s
    ⟨InvC4_init false, TeardownInv_init false⟩ h
  cases hmt : s.mounted with
  | true => exact (hm hmt).1
  | false => exact (hu hmt hclean).2.2

theorem C3_witness : exampleCleanUnmount.refreshAfterUnmount = false :=
  C3_no_refresh_after_clean_unmount [Ev.trigger true, Ev.unmount]
    exampleCleanUnmount (by decide) (by decide)

/-! ### Settlement: the retry counter and rescheduling -/

/-- Any settlement from a state with empty pending list reschedules exactly
one callback, bound to the incremented retry counter — for every outcome. -/
theorem settleStep_pending (s s' : PollerState) (rc : Nat) (rest : List Nat)
    (ok nonEmpty sc : Bool)
    (hpend : s.pendingTimeouts = []) (hin : s.inflight = rc :: rest)
    (hstep : step s (Ev.settle ok nonEmpty sc) = some s') :
    s'.pendingTimeouts = [(s.nextHandle, rc + 1)] := by
  simp only [step] at hstep
  split at hstep
  · rename_i rc2 rest2 hin2
    rw [hin] at hin2
    injection hin2 with h1 h2
    subst h1
    subst h2
    rw [Option.some.injEq] at hstep
    subst hstep
    cases ok <;> cases nonEmpty <;> cases ht : s.timer <;>
      simp [settleRequest, stopTimer, startTimer, hpend, ht]
  · rename_i hnil
    rw [hin] at hnil
    exact List.noConfusion hnil

/-- C2 as stated is refuted: after a poll that settles successfully, the
callback scheduled next carries retry counter 1, not 0. -/
theorem C2_counterexample :
    (reach [Ev.trigger true, Ev.fire 0 true, Ev.settle true false false]).map
      PollerState.pendingTimeouts = some [(1, 1)] := by decide

/-- C2 amended: the retry counter passed to the next scheduling decision is
the previous cycle's counter plus one after every settled poll, success and
failure alike; it is never reset to 0 by a successful poll. -/
theorem C2_retry_always_incremented (tr : List Ev) (s s' : PollerState)
    (rc : Nat) (rest : List Nat) (ok nonEmpty sc : Bool)
    (hr : reach tr = some s) (hin : s.inflight = rc :: rest)
    (hstep : step s (Ev.settle ok nonEmpty sc) = some s') :
    s'.pendingTimeouts = [(s.nextHandle, rc + 1)] := by
  have hinv := reachFrom_preserves_InvC4 tr (initPoller false) s (InvC4_init false) hr
  have hpend : s.pendingTimeouts = [] := (hinv.2.2.2 (by rw [hin]; simp)).1
  exact settleStep_pending s s' rc rest ok nonEmpty sc hpend hin hstep

theorem C2_witness : exampleAfterSuccess.pendingTimeouts = [(1, 1)] :=
  C2_retry_always_incremented [Ev.trigger true, Ev.fire 0 true] exampleInFlight
    exampleAfterSuccess 0 [] true false false (by decide) (by decide) (by decide)

/-- C7 as stated is refuted: a cycle that settles while the active-query
predicate is false (sc = false) still leaves one scheduled callback. -/
theorem C7_counterexample :
    (reach [Ev.trigger true, Ev.fire 0 true, Ev.settle true true false]).map
      (fun s => s.pendingTimeouts.length) = some 1 := by decide

/-- C7 amended: after any settlement a new callback is scheduled
unconditionally, whatever the predicate's value at settlement time; the
predicate is only re-checked when that callback fires, and a firing with
the predicate false clears the timer and issues no request. -/
theorem C7_reschedule_unconditional :
    (∀ tr s s' ok nonEmpty sc, reach tr = some s →
        step s (Ev.settle ok nonEmpty sc) = some s' →
        s'.pendingTimeouts.length = 1) ∧
    (∀ s s' h, step s (Ev.fire h false) = some s' →
        s'.timer = none ∧ s'.inflight = s.inflight ∧ s'.httpCalls = s.httpCalls) := by
  constructor
  · intro tr s s' ok nonEmpty sc hr hstep
    have hinv := reachFrom_preserves_InvC4 tr (initPoller false) s
      (InvC4_init false) hr
    cases hin : s.inflight with
    | nil =>
        simp only [step] at hstep
        split at hstep
        · rename_i rc2 rest2 hin2
          rw [hin] at hin2
          exact List.noConfusion hin2
        · exact Option.noConfusion hstep
    | cons rc rest =>
        have hpend : s.pendingTimeouts = [] := (hinv.2.2.2 (by rw [hin]; simp)).1
        rw [settleStep_pending s s' rc rest ok nonEmpty sc hpend hin hstep]
        rfl
  · intro s s' h hstep
    simp only [step] at hstep
    split at hstep
    · rename_i rc hlk
      rw [Option.some.injEq] at hstep
      subst hstep
      cases ht : s.timer <;>
        simp [stopwatchFire, stopTimer, ht]
    · exact Option.noConfusion hstep

theorem C7_witness :
    exampleAfterRefresh.pendingTimeouts.length = 1 ∧
    (exampleIdleFire.timer = none ∧
     exampleIdleFire.inflight = exampleAfterTrigger.inflight ∧
     exampleIdleFire.httpCalls = exampleAfterTrigger.httpCalls) :=
  ⟨C7_reschedule_unconditional.1 [Ev.trigger true, Ev.fire 0 true] exampleInFlight
      exampleAfterRefresh true true false (by decide) (by decide),
   C7_reschedule_unconditional.2 exampleAfterTrigger exampleIdleFire 0 (by decide)⟩

/-- C10: when the scheduled callback fires with the active-query predicate
false, the poller clears its timer, keeps its requests untouched (none is
issued) and forces its local offline flag to false. -/
theorem C10_idle_forces_online (tr : List Ev) (s s' : PollerState) (h : Nat)
    (hr : reach tr = some s) (hstep : step s (Ev.fire h false) = some s') :
    s'.timer = none ∧ s'.pendingTimeouts = [] ∧ s'.stateOffline = false ∧
    s'.httpCalls = s.httpCalls ∧ s'.inflight = s.inflight := by
  obtain ⟨hlen, hinf, hcoh, hexc⟩ :=
    reachFrom_preserves_InvC4 tr (initPoller false) s (InvC4_init false) hr
  simp only [step] at hstep
  split at hstep
  · rename_i rc hlk
    rw [Option.some.injEq] at hstep
    subst hstep
    rcases length_le_one_cases _ hlen with hpt | ⟨⟨h0, rc0⟩, hpt⟩
    · rw [hpt] at hlk
      simp [List.lookup] at hlk
    · have htimer : s.timer = some h0 :=
        hcoh (h0, rc0) (by rw [hpt]; exact List.mem_cons_self _ _)
      have hh : h0 = h := by
        rw [hpt] at hlk
        unfold List.lookup at hlk
        cases hbe : h == h0 with
        | true => exact (eq_of_beq hbe).symm
        | false =>
            rw [hbe] at hlk
            simp [List.lookup] at hlk
      have hfil : s.pendingTimeouts.filter (fun p => !(p.1 == h)) = [] := by
        rw [hpt, hh]
        simp
      refine ⟨?_, ?_, ?_, ?_, ?_⟩ <;>
        simp [stopwatchFire, stopTimer, htimer, hfil]
  · exact Option.noConfusion hstep

theorem C10_witness :
    exampleIdleFire.timer = none ∧ exampleIdleFire.pendingTimeouts = [] ∧
    exampleIdleFire.stateOffline = false ∧
    exampleIdleFire.httpCalls = exampleAfterTrigger.httpCalls ∧
    exampleIdleFire.inflight = exampleAfterTrigger.inflight :=
  C10_idle_forces_online [Ev.trigger true] exampleAfterTrigger exampleIdleFire 0
    (by decide) (by decide)

/-! ### The backoff delay that is computed but never used -/

/-- Mount followed by three poll cycles that all fail (timeout). -/
def threeTimeoutTrace : List Ev :=
  [Ev.trigger true, Ev.fire 0 true, Ev.settle false false false,
   Ev.fire 1 true, Ev.settle false false false,
   Ev.fire 2 true, Ev.settle false false false]

/-- C1 is a code bug: every setTimeout receives QUERY_UPDATE_FREQ = 500 ms,
so after three consecutive timeouts the observed delays are 500, 500, 500
(after the initial 500), not 550 and 600 — even though line 83 computes
exactly the claimed min(500 + 50*N, 5000) backoff and immediately discards
it. -/
theorem C1_delay_code_bug :
    (reach threeTimeoutTrace).map PollerState.delays = some [500, 500, 500, 500] ∧
    (reach threeTimeoutTrace).map PollerState.computedDelays =
      some [500, 550, 600, 650] ∧
    computedDelay 0 = 500 ∧ computedDelay 1 = 550 ∧ computedDelay 2 = 600 ∧
    QUERY_UPDATE_FREQ = 500 :=
  ⟨rfl, rfl, rfl, rfl, rfl, rfl⟩

/-! ### Offline-flag propagation (constructor line 36-38, componentDidUpdate
lines 44-50, setState calls at lines 106-108)

`storeOffline` is `sqlLab.offline` in the redux store, `propsOffline` the
last `offline` prop delivered by connect, `localOffline` the component's
`this.state.offline`. -/

structure OfflineSync where
  storeOffline : Bool
  propsOffline : Bool
  localOffline : Bool
  deriving Repr, DecidableEq

/-- Lines 46-48: the dispatch guard of componentDidUpdate compares the
PREVIOUS `props.offline` against the CURRENT `this.state.offline` and
dispatches `setUserOffline(this.state.offline)` when they differ. -/
def didUpdateDispatch (prevPropsOffline localOffline : Bool) : Bool :=
  prevPropsOffline != localOffline

/-- One poll settlement followed by the update cascade it causes.  The
then-branch sets `state.offline = false`, the catch-branch sets it true
(lines 106-108).  A PureComponent re-renders only when the state value (or
a prop) actually changed; each componentDidUpdate applies the guard above;
a dispatch writes `state.offline` into the store, and if that changes the
store, connect delivers the new `offline` prop which re-renders and runs
componentDidUpdate once more (with `prevProps` = the prop before the
delivery).  The cascade stabilises after at most two updates because the
second dispatch repeats the first value.  Returns the ordered list of
setUserOffline payloads dispatched, paired with the stabilised state. -/
def applyPollOutcome (m : OfflineSync) (ok : Bool) : List Bool × OfflineSync :=
  let newOffline := !ok
  if newOffline == m.localOffline then ([], m)
  else
    let m1 : OfflineSync := { m with localOffline := newOffline }
    if didUpdateDispatch m.propsOffline m1.localOffline then
      let m2 : OfflineSync := { m1 with storeOffline := m1.localOffline }
      if m2.storeOffline == m2.propsOffline then ([m1.localOffline], m2)
      else
        let m3 : OfflineSync := { m2 with propsOffline := m2.storeOffline }
        if didUpdateDispatch m2.propsOffline m3.localOffline then
          ([m1.localOffline, m3.localOffline], { m3 with storeOffline := m3.localOffline })
        else ([m1.localOffline], m3)
    else ([], m1)

/-- C9 as stated is refuted: starting online everywhere, one failed poll
(one value change of the offline flag) dispatches setUserOffline(true)
twice — the second dispatch happens at an update step in which the observed
offline value did not change. -/
theorem C9_counterexample :
    applyPollOutcome ⟨false, false, false⟩ false = ([true, true], ⟨true, true, true⟩) :=
  rfl

/-- C9 amended: the guard compares the previous props.offline with the
current state.offline; a poll outcome therefore dispatches nothing when the
state value is unchanged or coincides with the previously rendered prop,
and dispatches the SAME value twice (once on the state change, once on the
store echo) whenever the state changes away from the previous prop. -/
theorem C9_dispatch_characterisation (m : OfflineSync) (ok : Bool) :
    (applyPollOutcome m ok).fst =
      if m.localOffline = !ok then []
      else if m.propsOffline = !ok then []
      else [!ok, !ok] := by
  rcases m with ⟨st, pr, lo⟩
  cases st <;> cases pr <;> cases lo <;> cases ok <;> decide

end QueryAutoRefresh
